import Mathlib

/-!
Verification of the Anatomical Stiffness Field Engine of the DigitalTwin
repository, shallowly embedded over the reals.

Embedded code:
* `computePerVertexStiffness` from `src/unnamed/part_016` (hook
  `useMeshCoordinates`): Gaussian-weighted blending of hotspot
  contributions into a per-vertex stiffness array.
* the hover point query of `src/frontend/components/three/backend-mesh.tsx`
  (`handlePointerMove`): three-vertex average, rounded with
  `parseFloat(avg.toFixed(2))` before being emitted.
* the in-place attribute refresh of `backend-mesh.tsx`
  (`(existing.array as Float32Array).set(perVertexStiffness)`), whose
  semantics is ECMAScript `%TypedArray%.prototype.set` at offset 0.
* `heatmapColor` from
  `src/frontend/components/three/shaders/hologram.frag.glsl`.

Numbers are modelled as real numbers; JS `Math.exp` as `Real.exp`,
`THREE.Vector3.distanceTo` as the Euclidean distance.
-/

namespace DigitalTwin

/-- A 3-component vector, the embedding of `THREE.Vector3` values used by
the field engine (mesh-local positions). -/
structure Vec3 where
  x : ℝ
  y : ℝ
  z : ℝ

/-- Embedding of `THREE.Vector3.distanceTo`: Euclidean distance between two points. -/
noncomputable def dist3 (a b : Vec3) : ℝ :=
  Real.sqrt ((a.x - b.x) ^ 2 + (a.y - b.y) ^ 2 + (a.z - b.z) ^ 2)

/-- The `Hotspot` interface of `src/unnamed/part_016`: position,
relative stiffness multiplier `relStiff`, Gaussian radius `radius`. -/
structure Hotspot where
  pos : Vec3
  relStiff : ℝ
  radius : ℝ

/-- One Gaussian weight of the inner loop of `computePerVertexStiffness`:
`w = Math.exp(-(dist * dist) / (2 * sigma * sigma))` with
`dist = _vtx.distanceTo(hs.pos)` and `sigma = hs.radius`. -/
noncomputable def gaussWeight (v : Vec3) (hs : Hotspot) : ℝ :=
  Real.exp (-(dist3 v hs.pos * dist3 v hs.pos) / (2 * hs.radius * hs.radius))

/-- The accumulated `totalWeight` after the hotspot loop of
`computePerVertexStiffness` (`totalWeight += w`). -/
noncomputable def totalWeight (v : Vec3) (hotspots : List Hotspot) : ℝ :=
  (hotspots.map (fun hs => gaussWeight v hs)).sum

/-- The accumulated `weightedStiff` after the hotspot loop of
`computePerVertexStiffness` (`weightedStiff += w * hs.relStiff`). -/
noncomputable def weightedStiff (v : Vec3) (hotspots : List Hotspot) : ℝ :=
  (hotspots.map (fun hs => gaussWeight v hs * hs.relStiff)).sum

/-- The clamp of `computePerVertexStiffness`:
`Math.max(0.5, Math.min(15.0, x))`. -/
noncomputable def clampStiff (x : ℝ) : ℝ :=
  max 0.5 (min 15.0 x)

/-- The per-vertex body of `computePerVertexStiffness`:
`relStiff = totalWeight > 0 ? weightedStiff / totalWeight : 0.5;`
`result[vi] = Math.max(0.5, Math.min(15.0, globalStiffness * relStiff))`. -/
noncomputable def vertexStiffness (v : Vec3) (hotspots : List Hotspot)
    (globalStiffness : ℝ) : ℝ :=
  clampStiff (globalStiffness *
    (if totalWeight v hotspots > 0
      then weightedStiff v hotspots / totalWeight v hotspots
      else 0.5))

/-- The vertex read `vertices[vi*3], vertices[vi*3+1], vertices[vi*3+2]`
of `computePerVertexStiffness` on the flat position array. -/
noncomputable def vtxAt (vertices : List ℝ) (vi : ℕ) : Vec3 :=
  ⟨vertices.getD (vi * 3) 0, vertices.getD (vi * 3 + 1) 0,
    vertices.getD (vi * 3 + 2) 0⟩

/-- Embedding of `computePerVertexStiffness(vertices, hotspots, globalStiffness)` from
`src/unnamed/part_016`: `count = vertices.length / 3`, and for each
`vi < count` the Gaussian-blended, clamped stiffness of vertex `vi`. -/
noncomputable def computePerVertexStiffness (vertices : List ℝ)
    (hotspots : List Hotspot) (globalStiffness : ℝ) : List ℝ :=
  (List.range (vertices.length / 3)).map
    (fun vi => vertexStiffness (vtxAt vertices vi) hotspots globalStiffness)

/-- Embedding of `parseFloat(avg.toFixed(2))` in `handlePointerMove`
(`backend-mesh.tsx`): rounding to two decimal places.  ECMAScript
`toFixed(2)` picks the integer `n` minimising `|n / 100 - x|`, the larger
`n` on ties, i.e. `n = round (x * 100)` with Lean's `round` (which is
`⌊x + 1/2⌋`); `parseFloat` reads the decimal back, giving `n / 100`. -/
noncomputable def round2 (x : ℝ) : ℝ :=
  (round (x * 100) : ℤ) / 100

/-- The face sample of `handlePointerMove` (`backend-mesh.tsx`):
`avg = (sa + sb + sc) / 3` where `sa = stiffAttr.getX(a)` etc., with
`getX i` reading entry `i` of the per-vertex attribute array. -/
noncomputable def hoverAverage (field : List ℝ) (a b c : ℕ) : ℝ :=
  (field.getD a 0 + field.getD b 0 + field.getD c 0) / 3

/-- The value handed to `onHoverStiffness` in `handlePointerMove`
(`backend-mesh.tsx`): `parseFloat(avg.toFixed(2))` on the three-vertex
average. -/
noncomputable def hoverStiffness (field : List ℝ) (a b c : ℕ) : ℝ :=
  round2 (hoverAverage field a b c)

/-- The in-place attribute refresh of `LoadedMesh` (`backend-mesh.tsx`):
`(existing.array as Float32Array).set(perVertexStiffness)`.  ECMAScript
`%TypedArray%.prototype.set` at offset 0 throws a `RangeError` — before
writing anything — when the source is longer than the target (`none`),
and otherwise overwrites the first `source.length` entries of the target
in place, leaving the rest untouched. -/
def typedArraySet (target source : List ℝ) : Option (List ℝ) :=
  if target.length < source.length then none
  else some (source ++ target.drop source.length)

/-! Embedding of `heatmapColor` from
`src/frontend/components/three/shaders/hologram.frag.glsl`. -/

/-- GLSL `clamp(x, lo, hi)`. -/
noncomputable def glslClamp (x lo hi : ℝ) : ℝ :=
  max lo (min hi x)

/-- GLSL `smoothstep(e0, e1, x)`: `t = clamp((x-e0)/(e1-e0), 0, 1);`
`t*t*(3 - 2*t)`. -/
noncomputable def smoothstep (e0 e1 x : ℝ) : ℝ :=
  let t := glslClamp ((x - e0) / (e1 - e0)) 0 1
  t * t * (3 - 2 * t)

/-- GLSL `mix(a, b, f)` on `vec3`, componentwise `a*(1-f) + b*f`. -/
noncomputable def mix3 (a b : Vec3) (f : ℝ) : Vec3 :=
  ⟨a.x * (1 - f) + b.x * f, a.y * (1 - f) + b.y * f, a.z * (1 - f) + b.z * f⟩

/-- Shader constant `vec3 green = vec3(0.0, 1.0, 0.5);` — the "Healthy (< 2 kPa)" stop. -/
def green : Vec3 := ⟨0, 1, 0.5⟩

/-- Shader constant `vec3 yellow = vec3(1.0, 0.8, 0.0);` — the "Moderate (2-5 kPa)" stop. -/
noncomputable def yellow : Vec3 := ⟨1, 0.8, 0⟩

/-- Shader constant `vec3 red = vec3(1.0, 0.0, 0.3);` — the "Lesion (> 5 kPa)" stop. -/
noncomputable def red : Vec3 := ⟨1, 0, 0.3⟩

/-- Embedding of `heatmapColor(stiffness)` from `hologram.frag.glsl`:
`t = clamp(stiffness / 10.0, 0.0, 1.0)`, then `green` for `t < 0.2`,
`mix(green, yellow, smoothstep(0.2, 0.5, t))` for `t < 0.5`, else
`mix(yellow, red, smoothstep(0.5, 1.0, t))`. -/
noncomputable def heatmapColor (stiffness : ℝ) : Vec3 :=
  let t := glslClamp (stiffness / 10) 0 1
  if t < 0.2 then green
  else if t < 0.5 then mix3 green yellow (smoothstep 0.2 0.5 t)
  else mix3 yellow red (smoothstep 0.5 1 t)

/-- The hotspot table `ANATOMY_HOTSPOTS` of `backend-mesh.tsx`. -/
noncomputable def ANATOMY_HOTSPOTS : List Hotspot :=
  [⟨⟨-0.8, 0.6, 0.3⟩, 1.50, 0.80⟩,
   ⟨⟨0.6, 0.3, -0.2⟩, 0.85, 0.70⟩,
   ⟨⟨0.0, -0.4, 0.5⟩, 0.30, 0.65⟩]

/-! Helper lemmas. -/

/-- The synthesized array has one entry per counted vertex. -/
theorem computePerVertexStiffness_length (vertices : List ℝ)
    (hotspots : List Hotspot) (g : ℝ) :
    (computePerVertexStiffness vertices hotspots g).length =
      vertices.length / 3 := by
  simp [computePerVertexStiffness]

/-- Reading entry `vi` of the synthesized array gives the per-vertex
stiffness of vertex `vi`, for `vi` in range. -/
theorem computePerVertexStiffness_getD (vertices : List ℝ)
    (hotspots : List Hotspot) (g : ℝ) (vi : ℕ)
    (h : vi < vertices.length / 3) :
    (computePerVertexStiffness vertices hotspots g).getD vi 0 =
      vertexStiffness (vtxAt vertices vi) hotspots g := by
  simp [computePerVertexStiffness, List.getD_eq_getElem?_getD,
    List.getElem?_map, List.getElem?_range, h]

/-- Each Gaussian weight is strictly positive. -/
theorem gaussWeight_pos (v : Vec3) (hs : Hotspot) : 0 < gaussWeight v hs :=
  Real.exp_pos _

/-- The accumulated total weight is nonnegative. -/
theorem totalWeight_nonneg (v : Vec3) (hotspots : List Hotspot) :
    0 ≤ totalWeight v hotspots := by
  apply List.sum_nonneg
  intro x hx
  obtain ⟨hs, _, rfl⟩ := List.mem_map.1 hx
  exact (gaussWeight_pos v hs).le

/-- With nonnegative relative stiffnesses the weighted sum is nonnegative. -/
theorem weightedStiff_nonneg (v : Vec3) (hotspots : List Hotspot)
    (hrel : ∀ hs ∈ hotspots, 0 ≤ hs.relStiff) :
    0 ≤ weightedStiff v hotspots := by
  apply List.sum_nonneg
  intro x hx
  obtain ⟨hs, hmem, rfl⟩ := List.mem_map.1 hx
  exact mul_nonneg (gaussWeight_pos v hs).le (hrel hs hmem)

/-- The clamp is bounded below by `0.5`. -/
theorem clampStiff_le_bound (x : ℝ) : 0.5 ≤ clampStiff x :=
  le_max_left _ _

/-- The clamp is bounded above by `15`. -/
theorem clampStiff_ge_bound (x : ℝ) : clampStiff x ≤ 15 := by
  unfold clampStiff
  rw [max_le_iff, min_le_iff]
  norm_num

/-- The clamp is monotone. -/
theorem clampStiff_mono {x y : ℝ} (h : x ≤ y) : clampStiff x ≤ clampStiff y :=
  max_le_max le_rfl (min_le_min le_rfl h)

/-- For a single hotspot the normalized Gaussian mean collapses to the
hotspot's relative stiffness, whatever the distance: the weight cancels. -/
theorem vertexStiffness_singleton (v : Vec3) (hs : Hotspot) (g : ℝ) :
    vertexStiffness v [hs] g = clampStiff (g * hs.relStiff) := by
  have hw : 0 < gaussWeight v hs := gaussWeight_pos v hs
  unfold vertexStiffness
  rw [if_pos]
  · congr 1
    rw [totalWeight, weightedStiff]
    simp only [List.map_cons, List.map_nil, List.sum_cons, List.sum_nil,
      add_zero]
    rw [mul_comm (gaussWeight v hs) hs.relStiff, mul_div_assoc,
      div_self hw.ne', mul_one]
  · rw [totalWeight]
    simpa using hw

/-- GLSL `smoothstep` always lands in `[0, 1]`. -/
theorem smoothstep_mem_unit (e0 e1 x : ℝ) :
    0 ≤ smoothstep e0 e1 x ∧ smoothstep e0 e1 x ≤ 1 := by
  have h0 : 0 ≤ glslClamp ((x - e0) / (e1 - e0)) 0 1 := le_max_left _ _
  have h1 : glslClamp ((x - e0) / (e1 - e0)) 0 1 ≤ 1 :=
    max_le (by norm_num) (min_le_left _ _)
  set t := glslClamp ((x - e0) / (e1 - e0)) 0 1 with ht
  have hval : smoothstep e0 e1 x = t * t * (3 - 2 * t) := rfl
  rw [hval]
  constructor
  · have : 0 ≤ 3 - 2 * t := by linarith
    positivity
  · nlinarith [mul_nonneg (mul_nonneg (sub_nonneg.2 h1) (sub_nonneg.2 h1)) h0]

/-- Mixing with factor `0` returns the first color. -/
theorem mix3_zero (a b : Vec3) : mix3 a b 0 = a := by
  simp [mix3]

/-- Mixing with factor `1` returns the second color. -/
theorem mix3_one (a b : Vec3) : mix3 a b 1 = b := by
  simp [mix3]

/-! Claim theorems. -/

/-- C1: for every vertex `vi` of the input array, hotspot list and global
stiffness `g`, the synthesized value at `vi` equals
`clamp(g * (Σ w·relStiff / Σ w), 0.5, 15)` whenever `Σ w > 0`, and
`clamp(g * 0.5, 0.5, 15)` when `Σ w = 0` (in particular for an empty
hotspot list), where `w` is the Gaussian weight of the vertex against
each hotspot. -/
theorem stiffness_field_formula (vertices : List ℝ) (hotspots : List Hotspot)
    (g : ℝ) (vi : ℕ) (hvi : vi < vertices.length / 3) :
    (0 < totalWeight (vtxAt vertices vi) hotspots →
      (computePerVertexStiffness vertices hotspots g).getD vi 0 =
        clampStiff (g * (weightedStiff (vtxAt vertices vi) hotspots /
          totalWeight (vtxAt vertices vi) hotspots))) ∧
    (totalWeight (vtxAt vertices vi) hotspots = 0 →
      (computePerVertexStiffness vertices hotspots g).getD vi 0 =
        clampStiff (g * 0.5)) := by
  rw [computePerVertexStiffness_getD vertices hotspots g vi hvi]
  unfold vertexStiffness
  constructor
  · intro hpos
    rw [if_pos hpos]
  · intro hzero
    rw [if_neg]
    rw [hzero]
    exact lt_irrefl 0

/-- Witness for C1 at a concrete input: one vertex at the origin, no
hotspots, global stiffness `4` — the total weight is `0` and the output
entry is the clamped neutral value. -/
theorem stiffness_field_formula_witness :
    (0 < ([0, 0, 0] : List ℝ).length / 3) ∧
    (computePerVertexStiffness [0, 0, 0] [] 4).getD 0 0 =
      clampStiff (4 * 0.5) :=
  ⟨by norm_num,
    (stiffness_field_formula [0, 0, 0] [] 4 0 (by norm_num)).2
      (by simp [totalWeight])⟩

/-- C2: every element of the synthesized array lies in `[0.5, 15]`, for
every vertex array, hotspot list and global stiffness (including `0`,
negative and very large values). -/
theorem stiffness_field_output_range (vertices : List ℝ)
    (hotspots : List Hotspot) (g : ℝ) (x : ℝ)
    (hx : x ∈ computePerVertexStiffness vertices hotspots g) :
    0.5 ≤ x ∧ x ≤ 15 := by
  obtain ⟨vi, _, rfl⟩ := List.mem_map.1 hx
  exact ⟨clampStiff_le_bound _, clampStiff_ge_bound _⟩

/-- Witness for C2 at a concrete input: one vertex, no hotspots and
global stiffness `1000000`; the sole output entry is `15`, which the
theorem places in `[0.5, 15]`. -/
theorem stiffness_field_output_range_witness :
    (15 : ℝ) ∈ computePerVertexStiffness [0, 0, 0] [] 1000000 ∧
    (0.5 ≤ (15 : ℝ) ∧ (15 : ℝ) ≤ 15) := by
  have hmem : (15 : ℝ) ∈ computePerVertexStiffness [0, 0, 0] [] 1000000 := by
    have : computePerVertexStiffness [0, 0, 0] [] 1000000 = [15] := by
      simp [computePerVertexStiffness, vertexStiffness, totalWeight,
        clampStiff, List.range_succ]
      norm_num [min_def, max_def]
    rw [this]
    simp
  exact ⟨hmem, stiffness_field_output_range [0, 0, 0] [] 1000000 15 hmem⟩

/-- C3: on a flat position array of `3·V` floats the synthesizer returns
an array of length exactly `V`, for every hotspot list and global
stiffness. -/
theorem stiffness_field_output_length (V : ℕ) (vertices : List ℝ)
    (hotspots : List Hotspot) (g : ℝ) (h : vertices.length = 3 * V) :
    (computePerVertexStiffness vertices hotspots g).length = V := by
  rw [computePerVertexStiffness_length, h]
  omega

/-- Witness for C3 at a concrete input: six floats give two output
entries. -/
theorem stiffness_field_output_length_witness :
    ([0, 0, 0, 1, 1, 1] : List ℝ).length = 3 * 2 ∧
    (computePerVertexStiffness [0, 0, 0, 1, 1, 1] [] 7).length = 2 :=
  ⟨by norm_num,
    stiffness_field_output_length 2 [0, 0, 0, 1, 1, 1] [] 7 (by norm_num)⟩

/-- C9: the synthesizer is pointwise monotone in the global stiffness
scalar when every hotspot's relative stiffness is nonnegative: for
`g1 ≤ g2` every entry of the output for `g1` is at most the
corresponding entry for `g2`. -/
theorem stiffness_field_mono_global (vertices : List ℝ)
    (hotspots : List Hotspot) (g1 g2 : ℝ) (vi : ℕ)
    (hrel : ∀ hs ∈ hotspots, 0 ≤ hs.relStiff) (hg : g1 ≤ g2) :
    (computePerVertexStiffness vertices hotspots g1).getD vi 0 ≤
      (computePerVertexStiffness vertices hotspots g2).getD vi 0 := by
  rcases lt_or_le vi (vertices.length / 3) with hvi | hvi
  · rw [computePerVertexStiffness_getD vertices hotspots g1 vi hvi,
      computePerVertexStiffness_getD vertices hotspots g2 vi hvi]
    unfold vertexStiffness
    apply clampStiff_mono
    apply mul_le_mul_of_nonneg_right hg
    split_ifs with hw
    · exact div_nonneg (weightedStiff_nonneg _ _ hrel) hw.le
    · norm_num
  · rw [List.getD_eq_default, List.getD_eq_default] <;>
      simpa [computePerVertexStiffness_length] using hvi

/-- Witness for C9 at a concrete input: one vertex, the repository's
hotspot table, global stiffnesses `1 ≤ 2`. -/
theorem stiffness_field_mono_global_witness :
    (∀ hs ∈ ANATOMY_HOTSPOTS, 0 ≤ hs.relStiff) ∧ (1 : ℝ) ≤ 2 ∧
    (computePerVertexStiffness [0, 0, 0] ANATOMY_HOTSPOTS 1).getD 0 0 ≤
      (computePerVertexStiffness [0, 0, 0] ANATOMY_HOTSPOTS 2).getD 0 0 := by
  have hrel : ∀ hs ∈ ANATOMY_HOTSPOTS, 0 ≤ hs.relStiff := by
    intro hs hmem
    simp only [ANATOMY_HOTSPOTS, List.mem_cons, List.mem_singleton] at hmem
    rcases hmem with rfl | rfl | rfl | h
    · norm_num
    · norm_num
    · norm_num
    · simp at h
  exact ⟨hrel, by norm_num,
    stiffness_field_mono_global [0, 0, 0] ANATOMY_HOTSPOTS 1 2 0 hrel
      (by norm_num)⟩

/-- The flat vertex array of the spec's end-to-end scenario:
`(0,0,0), (1,0,0), (0,1,0), (1,1,0)`. -/
noncomputable def scenarioVertices : List ℝ :=
  [0, 0, 0, 1, 0, 0, 0, 1, 0, 1, 1, 0]

/-- The single hotspot of the spec's end-to-end scenario: position
`(0,0,0)`, relative stiffness `1.5`, influence radius `1.0`. -/
noncomputable def scenarioHotspot : Hotspot :=
  ⟨⟨0, 0, 0⟩, 1.5, 1⟩

/-- C5, counterexample: in the end-to-end scenario the synthesized value
at vertex 3 is exactly `6`, so it is not strictly below `6` as the claim
requires — with a single hotspot the Gaussian weight cancels out of the
normalized mean, making the field constant. -/
theorem scenario_vertex3_not_below_six :
    (computePerVertexStiffness scenarioVertices [scenarioHotspot] 4).getD 3 0
      = 6 ∧
    ¬ ((computePerVertexStiffness scenarioVertices [scenarioHotspot] 4).getD
        3 0 < 6) := by
  have hval :
      (computePerVertexStiffness scenarioVertices [scenarioHotspot] 4).getD
        3 0 = 6 := by
    rw [computePerVertexStiffness_getD scenarioVertices [scenarioHotspot] 4 3
      (by norm_num [scenarioVertices])]
    rw [vertexStiffness_singleton]
    norm_num [scenarioHotspot, clampStiff, min_def, max_def]
  exact ⟨hval, by rw [hval]; exact lt_irrefl 6⟩

/-- C5, amended: in the end-to-end scenario vertex 0 resolves to
`clamp(4·1.5, 0.5, 15) = 6` as claimed, but the whole field is the
constant array `[6, 6, 6, 6]` — vertex 3 also resolves to `6`, and the
values do not decrease with distance from the hotspot. -/
theorem scenario_field_constant_six :
    computePerVertexStiffness scenarioVertices [scenarioHotspot] 4 =
      [6, 6, 6, 6] := by
  have h6 : ∀ v : Vec3, vertexStiffness v [scenarioHotspot] 4 = 6 := by
    intro v
    rw [vertexStiffness_singleton]
    norm_num [scenarioHotspot, clampStiff, min_def, max_def]
  have hlen : scenarioVertices.length / 3 = 4 := by
    norm_num [scenarioVertices]
  unfold computePerVertexStiffness
  rw [hlen]
  simp [List.range_succ, h6]

/-- C7, counterexample: the hover query over the field `[2, 2, 3]` with
face `(0,1,2)` emits `2.33`, not the exact arithmetic mean `7/3` — the
average is rounded to two decimals before being handed to the callback. -/
theorem hover_query_not_exact_mean :
    hoverStiffness [2, 2, 3] 0 1 2 ≠ ((2 : ℝ) + 2 + 3) / 3 := by
  have havg : hoverAverage [2, 2, 3] 0 1 2 = 7 / 3 := by
    simp [hoverAverage]
    norm_num
  have hround : round ((7 : ℝ) / 3 * 100) = 233 := by
    rw [round_eq]
    rw [Int.floor_eq_iff]
    constructor <;> norm_num
  have hval : hoverStiffness [2, 2, 3] 0 1 2 = 233 / 100 := by
    unfold hoverStiffness round2
    rw [havg, hround]
    norm_num
  rw [hval]
  norm_num

/-- C7, amended: the hover query emits the arithmetic mean of
`field[a], field[b], field[c]` rounded to two decimal places; in
particular over the field `[2, 4, 6]` with face `(0,1,2)` it emits
exactly `4`, the mean. -/
theorem hover_query_rounded_mean :
    (∀ (field : List ℝ) (a b c : ℕ),
      hoverStiffness field a b c =
        round2 ((field.getD a 0 + field.getD b 0 + field.getD c 0) / 3)) ∧
    hoverStiffness [2, 4, 6] 0 1 2 = 4 := by
  constructor
  · intro field a b c
    rfl
  · have havg : hoverAverage [2, 4, 6] 0 1 2 = 4 := by
      simp [hoverAverage]
      norm_num
    have hround : round ((4 : ℝ) * 100) = 400 := by
      rw [round_eq]
      rw [Int.floor_eq_iff]
      constructor <;> norm_num
    unfold hoverStiffness round2
    rw [havg, hround]
    norm_num

/-- C10: the emitted hover value is the three-vertex mean rounded to two
decimal places: it differs from the exact mean by at most `0.005` and
`100` times it is always an integer (at most two decimal digits). -/
theorem hover_query_rounding_bound (field : List ℝ) (a b c : ℕ) :
    hoverStiffness field a b c = round2 (hoverAverage field a b c) ∧
    |hoverStiffness field a b c - hoverAverage field a b c| ≤ 5 / 1000 ∧
    ∃ n : ℤ, hoverStiffness field a b c = (n : ℝ) / 100 := by
  refine ⟨rfl, ?_, ⟨round (hoverAverage field a b c * 100), rfl⟩⟩
  unfold hoverStiffness round2
  set x := hoverAverage field a b c with hx
  have h := abs_sub_round (x * 100)
  have heq : (round (x * 100) : ℝ) / 100 - x =
      ((round (x * 100) : ℝ) - x * 100) / 100 := by
    ring
  rw [heq, abs_div]
  rw [abs_of_pos (by norm_num : (0 : ℝ) < 100), abs_sub_comm]
  linarith

/-- C8: the heatmap color ramp is a pure function of the effective
stiffness: below `2` kPa it returns the green stop; on `[2, 5]` kPa it
returns a linear blend (GLSL `mix`) of green into yellow; above `5` kPa
it returns a linear blend of yellow into red.  Both rendering backends
(`LoadedMesh` and `FallbackMesh`) share this single shader function. -/
theorem heatmap_ramp_trichotomy (s : ℝ) :
    (s < 2 → heatmapColor s = green) ∧
    (2 ≤ s → s ≤ 5 →
      ∃ f, 0 ≤ f ∧ f ≤ 1 ∧ heatmapColor s = mix3 green yellow f) ∧
    (5 < s → ∃ f, 0 ≤ f ∧ f ≤ 1 ∧ heatmapColor s = mix3 yellow red f) := by
  have hcol : heatmapColor s =
      (if glslClamp (s / 10) 0 1 < 0.2 then green
       else if glslClamp (s / 10) 0 1 < 0.5 then
         mix3 green yellow (smoothstep 0.2 0.5 (glslClamp (s / 10) 0 1))
       else mix3 yellow red (smoothstep 0.5 1 (glslClamp (s / 10) 0 1))) :=
    rfl
  refine ⟨fun h1 => ?_, fun h2 h3 => ?_, fun h4 => ?_⟩
  · have ht : glslClamp (s / 10) 0 1 < 0.2 := by
      unfold glslClamp
      apply max_lt (by norm_num)
      calc min 1 (s / 10) ≤ s / 10 := min_le_right _ _
        _ < 0.2 := by linarith
    rw [hcol, if_pos ht]
  · have hts : glslClamp (s / 10) 0 1 = s / 10 := by
      unfold glslClamp
      rw [min_eq_right (by linarith), max_eq_right (by linarith)]
    rcases lt_or_eq_of_le h3 with h5 | h5
    · have h02 : ¬ glslClamp (s / 10) 0 1 < 0.2 := by
        rw [hts]
        push_neg
        linarith
      have h05 : glslClamp (s / 10) 0 1 < 0.5 := by
        rw [hts]
        linarith
      exact ⟨smoothstep 0.2 0.5 (glslClamp (s / 10) 0 1),
        (smoothstep_mem_unit _ _ _).1, (smoothstep_mem_unit _ _ _).2,
        by rw [hcol, if_neg h02, if_pos h05]⟩
    · have h02 : ¬ glslClamp (s / 10) 0 1 < 0.2 := by
        rw [hts, h5]
        norm_num
      have h05 : ¬ glslClamp (s / 10) 0 1 < 0.5 := by
        rw [hts, h5]
        norm_num
      have hsm : smoothstep 0.5 1 (glslClamp (s / 10) 0 1) = 0 := by
        rw [hts, h5]
        norm_num [smoothstep, glslClamp, min_def, max_def]
      refine ⟨1, by norm_num, le_rfl, ?_⟩
      rw [hcol, if_neg h02, if_neg h05, hsm, mix3_zero, mix3_one]
  · have ht : 0.5 < glslClamp (s / 10) 0 1 := by
      unfold glslClamp
      calc (0.5 : ℝ) < min 1 (s / 10) := lt_min (by norm_num) (by linarith)
        _ ≤ max 0 (min 1 (s / 10)) := le_max_right _ _
    have h02 : ¬ glslClamp (s / 10) 0 1 < 0.2 := by linarith
    have h05 : ¬ glslClamp (s / 10) 0 1 < 0.5 := by linarith
    exact ⟨smoothstep 0.5 1 (glslClamp (s / 10) 0 1),
      (smoothstep_mem_unit _ _ _).1, (smoothstep_mem_unit _ _ _).2,
      by rw [hcol, if_neg h02, if_neg h05]⟩

/-- Witness for C8 at concrete stiffnesses `1`, `3` and `7`, one per
band of the ramp. -/
theorem heatmap_ramp_trichotomy_witness :
    heatmapColor 1 = green ∧
    (∃ f, 0 ≤ f ∧ f ≤ 1 ∧ heatmapColor 3 = mix3 green yellow f) ∧
    (∃ f, 0 ≤ f ∧ f ≤ 1 ∧ heatmapColor 7 = mix3 yellow red f) :=
  ⟨(heatmap_ramp_trichotomy 1).1 (by norm_num),
   (heatmap_ramp_trichotomy 3).2.1 (by norm_num) (by norm_num),
   (heatmap_ramp_trichotomy 7).2.2 (by norm_num)⟩

/-- C4, counterexample: the per-vertex attribute refresh of the code is
`Float32Array.set`; called with a source shorter than the committed
buffer it does not fail at all — it silently overwrites the prefix
(`[1, 2, 3]` updated with `[9]` succeeds and yields `[9, 2, 3]`), so a
mismatched length neither raises a `DimensionMismatch` nor leaves the
buffer unchanged. -/
theorem attribute_update_shorter_overwrites :
    typedArraySet [1, 2, 3] [9] = some [9, 2, 3] ∧
    ([9, 2, 3] : List ℝ) ≠ [1, 2, 3] := by
  constructor
  · rfl
  · intro h
    simp only [List.cons.injEq] at h
    exact absurd h.1 (by norm_num)

/-- C4, amended: when the new field array is longer than the committed
buffer, the update fails (ECMAScript `RangeError`, checked before any
write, so the buffer is untouched); when it is not longer, the update
succeeds — with a shorter array it silently overwrites the first
`source.length` entries and keeps the remaining ones, with no
`DimensionMismatch` check anywhere. -/
theorem attribute_update_behavior (target source : List ℝ) :
    (target.length < source.length → typedArraySet target source = none) ∧
    (source.length ≤ target.length →
      typedArraySet target source =
        some (source ++ target.drop source.length) ∧
      (source ++ target.drop source.length).length = target.length) := by
  constructor
  · intro h
    simp [typedArraySet, h]
  · intro h
    constructor
    · unfold typedArraySet
      rw [if_neg (Nat.not_lt.2 h)]
    · simp only [List.length_append, List.length_drop]
      omega

/-- Witness for C4's amended statement: a longer source fails, a shorter
source succeeds in place. -/
theorem attribute_update_behavior_witness :
    typedArraySet [1, 2, 3] [4, 5, 6, 7] = none ∧
    typedArraySet [1, 2, 3] [9] = some ([9] ++ List.drop 1 [1, 2, 3]) :=
  ⟨(attribute_update_behavior [1, 2, 3] [4, 5, 6, 7]).1 (by norm_num),
   ((attribute_update_behavior [1, 2, 3] [9]).2 (by norm_num)).1⟩

end DigitalTwin
